import Mathlib

/-!
Verification development for the polymarket copy-trading bot repository:
a shallow embedding of the position matcher (frontend/app.js,
renderPairedPositions), the reconciliation driver
(src/scripts/reconcilePositions.ts), and — modelled from the spec, since
src/utils/postOrder.ts is not part of the provided sources — the
slippage guard and execution retry loop.

JavaScript numeric values that may be absent are embedded as Option ℚ;
the JavaScript truthiness-based fallback `a || b` on numbers (absent,
0 and NaN are falsy) is embedded by jsOr / qOr below.  Computations
that can produce non-finite JavaScript numbers (division by zero)
are embedded in the JNum type, which carries Infinity / -Infinity / NaN
explicitly.
-/

namespace PolyBot

/-- JavaScript expression `(x || 0)` on a possibly-absent number:
absent and 0 both give 0, so this is just the default-0 read. -/
def jsNum (x : Option ℚ) : ℚ := x.getD 0

/-- JavaScript expression `x || b` where `x` is a possibly-absent number:
`x` when present and nonzero, otherwise `b`. -/
def jsOr (x : Option ℚ) (b : ℚ) : ℚ :=
  match x with
  | some q => if q = 0 then b else q
  | none => b

/-- JavaScript expression `a || b` where `a` is an always-present number:
`a` when nonzero, otherwise `b`. -/
def qOr (a b : ℚ) : ℚ := if a = 0 then b else a

/-- A position snapshot as returned by the Polymarket data API
(UserPositionInterface): the fields read by the matcher
(frontend/app.js) and the reconciliation driver
(src/scripts/reconcilePositions.ts). `curPrice`, `currentValue` and
`cashPnl` may be absent (the code guards them with `|| 0` / `|| ...`). -/
structure Position where
  conditionId : String
  asset : String
  title : String
  outcome : String
  slug : String
  icon : String
  eventSlug : String
  outcomeIndex : ℤ
  size : ℚ
  avgPrice : ℚ
  curPrice : Option ℚ
  currentValue : Option ℚ
  cashPnl : Option ℚ
  deriving DecidableEq, Repr

/-- Open-position test used identically in frontend/app.js and
reconcilePositions.ts: `(p.currentValue || 0) > 0.01`. -/
def isOpenPos (p : Position) : Bool := decide ((0.01 : ℚ) < jsNum p.currentValue)

/-- `positions.filter(p => (p.currentValue || 0) > 0.01)`. -/
def openFilter (l : List Position) : List Position := l.filter isOpenPos

/-- `positions.filter(p => (p.currentValue || 0) <= 0.01)`
(renderPositions in frontend/app.js: the closed tab). -/
def closedFilter (l : List Position) : List Position := l.filter (fun p => !isOpenPos p)

/-! ## Position matcher (frontend/app.js, renderPairedPositions) -/

/-- The market-identity key of renderPairedPositions: the title and the
outcome joined by a bar, as in the JavaScript template string. -/
def getKey (p : Position) : String := p.title ++ "|" ++ p.outcome

/-- Last position in `l` whose key is `k`: the value stored at `k` by
`l.forEach(p => { byKey[getKey(p)] = p })` (later writes overwrite). -/
def lookupLast (l : List Position) (k : String) : Option Position :=
  (l.filter (fun p => decide (getKey p = k))).getLast?

/-- Keys of a list in first-occurrence order: `Object.keys` of the object
built by inserting every element in list order. -/
def firstKeys : List String → List String
  | [] => []
  | k :: ks => k :: firstKeys (ks.filter (fun k2 => decide (k2 ≠ k)))
termination_by l => l.length
decreasing_by
  simp only [List.length_cons]
  exact Nat.lt_succ_of_le (List.length_filter_le _ _)

/-- Matched pairs of renderPairedPositions: for each key of the trader
map (insertion order), if the bot map also holds the key, the pair of
the two stored positions. Both inputs are open-filtered first. -/
def matchedPairs (tp bp : List Position) : List (Position × Position) :=
  let tOpen := openFilter tp
  let bOpen := openFilter bp
  (firstKeys (tOpen.map getKey)).filterMap (fun k =>
    match lookupLast tOpen k, lookupLast bOpen k with
    | some t, some b => some (t, b)
    | _, _ => none)

/-- `traderOnly = traderPositions.filter(p => !botByKey[getKey(p)])`
over the open-filtered inputs. -/
def traderOnlyF (tp bp : List Position) : List Position :=
  (openFilter tp).filter (fun p => (lookupLast (openFilter bp) (getKey p)).isNone)

/-- `botOnly = botPositions.filter(p => !traderByKey[getKey(p)])`
over the open-filtered inputs. -/
def botOnlyF (tp bp : List Position) : List Position :=
  (openFilter bp).filter (fun p => (lookupLast (openFilter tp) (getKey p)).isNone)

/-! ## JavaScript non-finite arithmetic for the slippage average -/

/-- A JavaScript number that may be non-finite: finite rational,
Infinity, -Infinity or NaN. -/
inductive JNum where
  | fin (q : ℚ)
  | pinf
  | ninf
  | nan
  deriving DecidableEq, Repr

/-- JavaScript division `a / b` of two finite numbers: finite quotient
when `b ≠ 0`, otherwise a signed infinity (or NaN for `0 / 0`). -/
def jsDiv (a b : ℚ) : JNum :=
  if b = 0 then
    if a = 0 then .nan else if 0 < a then .pinf else .ninf
  else .fin (a / b)

/-- JavaScript addition on possibly non-finite numbers. -/
def JNum.add : JNum → JNum → JNum
  | .nan, _ => .nan
  | _, .nan => .nan
  | .pinf, .ninf => .nan
  | .ninf, .pinf => .nan
  | .pinf, _ => .pinf
  | _, .pinf => .pinf
  | .ninf, _ => .ninf
  | _, .ninf => .ninf
  | .fin a, .fin b => .fin (a + b)

/-- JavaScript multiplication of a possibly non-finite number by a
finite constant. -/
def JNum.mulQ : JNum → ℚ → JNum
  | .nan, _ => .nan
  | .fin a, c => .fin (a * c)
  | .pinf, c => if c = 0 then .nan else if 0 < c then .pinf else .ninf
  | .ninf, c => if c = 0 then .nan else if 0 < c then .ninf else .pinf

/-- JavaScript division of a possibly non-finite number by a natural
count (the `/ matchedPairs.length` step). -/
def JNum.divNat : JNum → ℕ → JNum
  | .nan, _ => .nan
  | .pinf, _ => .pinf
  | .ninf, _ => .ninf
  | .fin a, n =>
    if n = 0 then
      if a = 0 then .nan else if 0 < a then .pinf else .ninf
    else .fin (a / (n : ℚ))

/-- Per-row slippage percentage of renderPairedPositions:
`t.avgPrice > 0 ? ((b.avgPrice - t.avgPrice) / t.avgPrice * 100) : 0`. -/
def reportedPairSlippagePct (t b : Position) : ℚ :=
  if 0 < t.avgPrice then (b.avgPrice - t.avgPrice) / t.avgPrice * 100 else 0

/-- The aggregate `avgSlippagePct` of renderPairedPositions: 0 when no
pairs, otherwise `reduce((sum, pair) => sum + ((bot − trader) / trader
* 100), 0) / length` — with no zero guard on the trader price, hence
computed in JNum. -/
def avgSlippagePct (pairs : List (Position × Position)) : JNum :=
  if 0 < pairs.length then
    (pairs.foldl
      (fun (acc : JNum) pr =>
        acc.add ((jsDiv (pr.2.avgPrice - pr.1.avgPrice) pr.1.avgPrice).mulQ 100))
      (JNum.fin 0)).divNat pairs.length
  else .fin 0

/-! ## Reconciliation driver (src/scripts/reconcilePositions.ts) -/

/-- The set (as a list, membership matters) built by
`traderPositionsResponses.forEach(positions => positions.filter(open)
.forEach(p => traderOpenConditions.add(p.conditionId)))`. -/
def traderOpenConditions (rs : List (List Position)) : List String :=
  rs.flatMap (fun ps => (openFilter ps).map (fun p => p.conditionId))

/-- `botOpen = botPositions.filter(p => (p.currentValue || 0) > 0.01)`. -/
def botOpenRec (bps : List Position) : List Position := openFilter bps

/-- `botOnly = botOpen.filter(p => !traderOpenConditions.has(p.conditionId))`. -/
def botOnlyRec (rs : List (List Position)) (bps : List Position) : List Position :=
  (botOpenRec bps).filter (fun p => !decide (p.conditionId ∈ traderOpenConditions rs))

/-- The trade-activity record shape (UserActivityInterface) as filled in
by the driver's synthetic exit instruction; bookkeeping-only string
fields carried verbatim from the source are kept, the Mongo `_id` is
not modelled. -/
structure UserActivity where
  proxyWallet : String
  timestamp : ℕ
  conditionId : String
  type : String
  size : ℚ
  usdcSize : ℚ
  transactionHash : String
  price : ℚ
  asset : String
  side : String
  outcomeIndex : ℤ
  title : String
  slug : String
  icon : String
  eventSlug : String
  outcome : String
  name : String
  pseudonym : String
  bot : Bool
  botExcutedTime : ℕ
  myBoughtSize : ℚ
  deriving DecidableEq, Repr

/-- The `syntheticTrade` record built for one stale position
(reconcilePositions.ts lines 67–93): full-size SELL with
`price = pos.curPrice || pos.avgPrice || 0.5` and
`usdcSize = (pos.size || 0) * (pos.curPrice || pos.avgPrice || 0)`. -/
def syntheticTrade (wallet : String) (now : ℕ) (pos : Position) : UserActivity :=
  ⟨wallet, now, pos.conditionId, "TRADE",
    pos.size,
    qOr pos.size 0 * jsOr pos.curPrice (qOr pos.avgPrice 0),
    "",
    jsOr pos.curPrice (qOr pos.avgPrice 0.5),
    pos.asset, "SELL", pos.outcomeIndex, pos.title, pos.slug, pos.icon,
    pos.eventSlug, pos.outcome, "reconcile", "reconcile", false, 0,
    pos.size⟩

/-- Observable effects of one reconciliation run, in order. -/
inductive Event where
  | fetchBalance
  | logSuccessNoStale
  | submitOrder (side : String) (pos : Position) (trade : UserActivity)
  | sleepMs (ms : ℕ)
  | logError (conditionId : String) (msg : String)
  deriving DecidableEq, Repr

/-- Events of one loop iteration (reconcilePositions.ts lines 60–114):
the `postOrder` call, then `sleep(250)` when it returns, or the caught
and logged error when it throws — the catch skips the sleep. -/
def taskEvents (oracle : Position → Except String Unit) (wallet : String) (now : ℕ)
    (p : Position) : List Event :=
  match oracle p with
  | .ok _ => [.submitOrder "sell" p (syntheticTrade wallet now p), .sleepMs 250]
  | .error e => [.submitOrder "sell" p (syntheticTrade wallet now p), .logError p.conditionId e]

/-- Result of one reconciliation run: its event trace and whether the
run escaped with a fatal error. -/
structure RunResult where
  events : List Event
  fatal : Option String
  deriving DecidableEq, Repr

/-- The reconciliation `main` (reconcilePositions.ts), with the network
reads as inputs (`rs` = per-trader position responses, `bps` = bot
positions) and `postOrder`'s outcome as the oracle: early success
return when no stale positions, otherwise one balance fetch then the
sequential guarded loop. -/
def reconcileRun (rs : List (List Position)) (bps : List Position)
    (oracle : Position → Except String Unit) (wallet : String) (now : ℕ) : RunResult :=
  let bo := botOnlyRec rs bps
  if bo.length = 0 then
    ⟨[.logSuccessNoStale], none⟩
  else
    ⟨.fetchBalance :: bo.flatMap (taskEvents oracle wallet now), none⟩

/-- Positions for which an order submission was attempted in a trace. -/
def submittedPositions (events : List Event) : List Position :=
  events.filterMap (fun e =>
    match e with
    | .submitOrder _ p _ => some p
    | _ => none)

/-! ## Slippage guard and execution retry loop

Modelled from the spec: `src/utils/postOrder.ts`, where the repository
README says this logic lives, is not among the provided sources; the
definitions below follow spec sections 4.2 (SlippageGuard) and
4.3 (ExecutionRetryLoop) verbatim. -/

/-- Modelled from the spec: the terminal action configured by
`SLIPPAGE_ACTION`, `wait` (retry then skip) or `skip` (skip
immediately). -/
inductive SlipAction where
  | wait
  | skip
  deriving DecidableEq, Repr

/-- Modelled from the spec: SlippageConfig — `maxSlippagePct`, `waitMs`,
`maxRetries`, `minBookSizeUsd`, `action`. -/
structure SlippageConfig where
  maxSlippagePct : ℚ
  waitMs : ℕ
  maxRetries : ℕ
  minBookSizeUsd : ℚ
  action : SlipAction
  deriving DecidableEq, Repr

/-- Order side for the guard. -/
inductive Side where
  | buy
  | sell
  deriving DecidableEq, Repr

/-- Modelled from the spec: a freshly fetched quote — best bid/ask and
the USD notional available at each best level. -/
structure Quote where
  bestBid : ℚ
  bestAsk : ℚ
  bidDepthUsd : ℚ
  askDepthUsd : ℚ
  deriving DecidableEq, Repr

/-- Modelled from the spec: GuardDecision — Proceed, RetryAfterWait or
Abort(reason). -/
inductive GuardDecision where
  | proceed
  | retryAfterWait
  | abort (reason : String)
  deriving DecidableEq, Repr

/-- Modelled from the spec: `livePrice` = best ask for BUY, best bid for
SELL. -/
def livePrice (s : Side) (q : Quote) : ℚ :=
  match s with
  | .buy => q.bestAsk
  | .sell => q.bestBid

/-- Modelled from the spec: the book size at the relevant side's best
price, in USD notional. -/
def bookDepthUsd (s : Side) (q : Quote) : ℚ :=
  match s with
  | .buy => q.askDepthUsd
  | .sell => q.bidDepthUsd

/-- Modelled from the spec: drift = (livePrice − referencePrice) /
referencePrice × 100, with the adverse-direction sign convention — for
BUY a rise is adverse, for SELL a fall is adverse. -/
def adverseDrift (s : Side) (ref : ℚ) (q : Quote) : ℚ :=
  match s with
  | .buy => (livePrice .buy q - ref) / ref * 100
  | .sell => -((livePrice .sell q - ref) / ref * 100)

/-- Modelled from the spec: tolerance violated iff
|adverseDrift| > maxSlippagePct. -/
def toleranceViolated (cfg : SlippageConfig) (s : Side) (ref : ℚ) (q : Quote) : Bool :=
  decide (cfg.maxSlippagePct < |adverseDrift s ref q|)

/-- Modelled from the spec: depth violated iff the book size at the
relevant best price is below minBookSizeUsd. -/
def depthViolated (cfg : SlippageConfig) (s : Side) (q : Quote) : Bool :=
  decide (bookDepthUsd s q < cfg.minBookSizeUsd)

/-- Modelled from the spec: the abort reason attached to a violation. -/
def violationReason (cfg : SlippageConfig) (s : Side) (ref : ℚ) (q : Quote) : String :=
  if toleranceViolated cfg s ref q then "slippage outside tolerance" else "insufficient depth"

/-- Modelled from the spec: the guard decision for one attempt —
Proceed when neither bound is violated; on violation, Abort at once
when action = skip, otherwise RetryAfterWait until the attempt counter
reaches maxRetries, then Abort("max retries exhausted"). -/
def slippageGuard (cfg : SlippageConfig) (s : Side) (ref : ℚ) (q : Quote)
    (attempt : ℕ) : GuardDecision :=
  if toleranceViolated cfg s ref q || depthViolated cfg s q then
    match cfg.action with
    | .skip => .abort (violationReason cfg s ref q)
    | .wait =>
      if cfg.maxRetries ≤ attempt then .abort "max retries exhausted" else .retryAfterWait
  else .proceed

/-- Modelled from the spec: terminal outcome of the execution retry
loop. -/
inductive LoopOutcome where
  | succeeded
  | failed (msg : String)
  | aborted (reason : String)
  deriving DecidableEq, Repr

/-- Modelled from the spec: one run of the execution retry loop — the
guard decisions in order, the number of waits taken, whether the order
was submitted, and the terminal outcome. -/
structure LoopRun where
  decisions : List GuardDecision
  waits : ℕ
  submitted : Bool
  outcome : LoopOutcome
  deriving DecidableEq, Repr

/-- A RetryAfterWait decision is only issued strictly below the retry
bound. -/
theorem slippageGuard_retry_lt (cfg : SlippageConfig) (s : Side) (ref : ℚ) (q : Quote)
    (attempt : ℕ) (h : slippageGuard cfg s ref q attempt = .retryAfterWait) :
    attempt < cfg.maxRetries := by
  unfold slippageGuard at h
  split at h
  · cases hact : cfg.action <;> simp [hact] at h
    exact h
  · exact absurd h (by simp)

/-- Modelled from the spec: outcome of the single submission call —
collaborator failure becomes a terminal Failed with the underlying
error. -/
def submitOutcome : Except String Unit → LoopOutcome
  | .ok _ => .succeeded
  | .error e => .failed e

/-- Modelled from the spec: the execution retry loop from a given
attempt counter — fetch the quote for this attempt, consult the guard;
Proceed submits exactly once, Abort terminates with no submission,
RetryAfterWait waits and re-checks with the counter incremented. -/
def execLoopFrom (cfg : SlippageConfig) (s : Side) (ref : ℚ) (quotes : ℕ → Quote)
    (submit : Except String Unit) (attempt : ℕ) : LoopRun :=
  match h : slippageGuard cfg s ref (quotes attempt) attempt with
  | .proceed => ⟨[.proceed], 0, true, submitOutcome submit⟩
  | .abort r => ⟨[.abort r], 0, false, .aborted r⟩
  | .retryAfterWait =>
    let rest := execLoopFrom cfg s ref quotes submit (attempt + 1)
    ⟨.retryAfterWait :: rest.decisions, rest.waits + 1, rest.submitted, rest.outcome⟩
termination_by cfg.maxRetries - attempt
decreasing_by
  have := slippageGuard_retry_lt cfg s ref (quotes attempt) attempt h
  omega

/-- Modelled from the spec: the full retry loop starts at attempt 0. -/
def execLoop (cfg : SlippageConfig) (s : Side) (ref : ℚ) (quotes : ℕ → Quote)
    (submit : Except String Unit) : LoopRun :=
  execLoopFrom cfg s ref quotes submit 0

/-- Recognizer for pause events in a trace. -/
def isSleepEvent : Event → Bool
  | .sleepMs _ => true
  | _ => false

/-! ## Concrete sample data -/

/-- Open sample position held only by the bot. -/
def samplePosA : Position :=
  ⟨"cond-A", "asset-A", "Will it rain", "Up", "rain", "icon", "ev", 0,
    10, 2/5, some (2/5), some 4, some 1⟩

/-- Open trader position on a different condition and market key. -/
def samplePosB : Position :=
  ⟨"cond-B", "asset-B", "Will it snow", "Down", "snow", "icon", "ev", 1,
    3, 1/4, some (1/3), some 1, none⟩

/-- Closed position: large size but negligible current value. -/
def sampleClosed : Position :=
  ⟨"cond-C", "asset-C", "Old market", "Up", "old", "icon", "ev", 0,
    100, 3/10, some (1/100), some (1/200), some (-2)⟩

/-- Open trader position with entry price 0.40 (spec scenario). -/
def sampleTrader40 : Position :=
  ⟨"cond-D", "asset-D", "A", "Up", "a", "icon", "ev", 0,
    10, 2/5, some (2/5), some 4, none⟩

/-- Open bot position on the same key with entry price 0.42. -/
def sampleBot42 : Position :=
  ⟨"cond-D", "asset-D2", "A", "Up", "a", "icon", "ev", 0,
    9, 21/50, some (2/5), some (18/5), none⟩

/-- Open trader position with entry price 0 (degenerate entry). -/
def sampleTraderZeroEntry : Position :=
  ⟨"cond-E", "asset-E", "Z", "Up", "z", "icon", "ev", 0,
    10, 0, some (2/5), some 4, none⟩

/-- Open bot position matching `sampleTraderZeroEntry`'s key. -/
def sampleBotHalfEntry : Position :=
  ⟨"cond-E", "asset-E2", "Z", "Up", "z", "icon", "ev", 0,
    5, 1/2, some (2/5), some 2, none⟩

/-- Open bot position with no price signal: `curPrice` and `avgPrice`
both 0. -/
def samplePosNoSignal : Position :=
  ⟨"cond-F", "asset-F", "No signal", "Down", "ns", "icon", "ev", 1,
    3, 0, some 0, some 1, none⟩

/-- Order submission oracle that always succeeds. -/
def oracleOk : Position → Except String Unit := fun _ => .ok ()

/-- Order submission oracle that always throws. -/
def oracleBoom : Position → Except String Unit := fun _ => .error "boom"

/-- Quote stream whose best ask sits 20% above a 0.5 reference price,
with ample depth. -/
def quotesDrifted : ℕ → Quote := fun _ => ⟨49/100, 3/5, 10, 10⟩

/-- Skip-action guard configuration: 1% tolerance, $5 depth floor. -/
def sampleCfgSkip : SlippageConfig := ⟨1, 30000, 20, 5, .skip⟩

/-! ## Helper lemmas -/

theorem qOr_self_zero (a : ℚ) : qOr a 0 = a := by
  unfold qOr; split <;> simp_all

theorem mem_of_lookupLast {l : List Position} {k : String} {p : Position}
    (h : lookupLast l k = some p) : p ∈ l ∧ getKey p = k := by
  have hm := List.mem_of_getLast?_eq_some h
  have := List.mem_filter.mp hm
  exact ⟨this.1, of_decide_eq_true this.2⟩

theorem lookupLast_eq_none {l : List Position} {k : String}
    (h : ∀ p ∈ l, getKey p ≠ k) : lookupLast l k = none := by
  unfold lookupLast
  rw [List.filter_eq_nil_iff.mpr (fun p hp => by simpa using h p hp)]
  rfl

theorem mem_of_mem_firstKeys : ∀ (l : List String) (k : String), k ∈ firstKeys l → k ∈ l
  | [], _, h => by simp [firstKeys] at h
  | a :: ks, k, h => by
    rw [firstKeys] at h
    rcases List.mem_cons.mp h with h1 | h2
    · exact h1 ▸ List.mem_cons_self a ks
    · exact List.mem_cons_of_mem a
        (List.mem_of_mem_filter (mem_of_mem_firstKeys _ k h2))
termination_by l => l.length
decreasing_by
  simp only [List.length_cons]
  exact Nat.lt_succ_of_le (List.length_filter_le _ _)

theorem submittedPositions_taskEvents (oracle : Position → Except String Unit)
    (w : String) (n : ℕ) (p : Position) :
    submittedPositions (taskEvents oracle w n p) = [p] := by
  cases h : oracle p <;> simp [taskEvents, submittedPositions, h]

theorem submittedPositions_flatMap (oracle : Position → Except String Unit)
    (w : String) (n : ℕ) :
    ∀ l : List Position, submittedPositions (l.flatMap (taskEvents oracle w n)) = l
  | [] => rfl
  | p :: ps => by
    have h1 := submittedPositions_taskEvents oracle w n p
    have h2 := submittedPositions_flatMap oracle w n ps
    simp only [List.flatMap_cons, submittedPositions, List.filterMap_append] at h1 h2 ⊢
    rw [h1, h2]
    rfl

theorem submittedPositions_run (rs : List (List Position)) (bps : List Position)
    (oracle : Position → Except String Unit) (w : String) (n : ℕ) :
    submittedPositions (reconcileRun rs bps oracle w n).events = botOnlyRec rs bps := by
  simp only [reconcileRun]
  split
  · next h =>
    rw [List.length_eq_zero.mp h]
    rfl
  · next h =>
    have := submittedPositions_flatMap oracle w n (botOnlyRec rs bps)
    simpa [submittedPositions] using this

theorem reconcileRun_fatal (rs : List (List Position)) (bps : List Position)
    (oracle : Position → Except String Unit) (w : String) (n : ℕ) :
    (reconcileRun rs bps oracle w n).fatal = none := by
  simp only [reconcileRun]
  split <;> rfl

theorem mem_traderOpenConditions (rs : List (List Position)) (c : String) :
    c ∈ traderOpenConditions rs ↔
      ∃ r ∈ rs, ∃ q ∈ r, isOpenPos q = true ∧ q.conditionId = c := by
  simp [traderOpenConditions, openFilter, List.mem_flatMap, List.mem_filter, and_assoc]

theorem mem_botOnlyRec (rs : List (List Position)) (bps : List Position) (p : Position) :
    p ∈ botOnlyRec rs bps ↔
      p ∈ bps ∧ isOpenPos p = true ∧
        ∀ r ∈ rs, ∀ q ∈ r, isOpenPos q = true → q.conditionId ≠ p.conditionId := by
  unfold botOnlyRec botOpenRec openFilter
  rw [List.mem_filter, List.mem_filter]
  constructor
  · rintro ⟨⟨hmem, hopen⟩, hnot⟩
    refine ⟨hmem, hopen, ?_⟩
    intro r hr q hq hqo hc
    have : p.conditionId ∈ traderOpenConditions rs :=
      (mem_traderOpenConditions rs p.conditionId).mpr ⟨r, hr, q, hq, hqo, hc⟩
    simp [this] at hnot
  · rintro ⟨hmem, hopen, hall⟩
    refine ⟨⟨hmem, hopen⟩, ?_⟩
    simp only [Bool.not_eq_true', decide_eq_false_iff_not]
    intro hc
    obtain ⟨r, hr, q, hq, hqo, hcc⟩ := (mem_traderOpenConditions rs p.conditionId).mp hc
    exact hall r hr q hq hqo hcc

theorem mem_matchedPairs {tp bp : List Position} {pr : Position × Position}
    (h : pr ∈ matchedPairs tp bp) :
    ∃ k, lookupLast (openFilter tp) k = some pr.1 ∧ lookupLast (openFilter bp) k = some pr.2 := by
  simp only [matchedPairs] at h
  obtain ⟨k, _, hf⟩ := List.mem_filterMap.mp h
  refine ⟨k, ?_⟩
  cases ht : lookupLast (openFilter tp) k with
  | none => simp [ht] at hf
  | some t =>
    cases hb : lookupLast (openFilter bp) k with
    | none => simp [ht, hb] at hf
    | some b =>
      simp only [ht, hb, Option.some.injEq] at hf
      rw [← hf]
      simp [ht, hb]

/-! ## Claim theorems -/

/-- Claim C1: for every stale bot-only open position processed by the
reconciliation driver, the synthesized exit instruction has side SELL,
quantity equal to the position's full size, and reference price equal
to the position's current price, falling back to its average entry
price when the current price is absent or zero, falling back to 0.5
when both are absent or zero. -/
theorem synthetic_exit_instruction_fields (wallet : String) (now : ℕ) (pos : Position) :
    (syntheticTrade wallet now pos).side = "SELL" ∧
    (syntheticTrade wallet now pos).size = pos.size ∧
    (∀ q : ℚ, pos.curPrice = some q → q ≠ 0 → (syntheticTrade wallet now pos).price = q) ∧
    ((pos.curPrice = none ∨ pos.curPrice = some 0) → pos.avgPrice ≠ 0 →
      (syntheticTrade wallet now pos).price = pos.avgPrice) ∧
    ((pos.curPrice = none ∨ pos.curPrice = some 0) → pos.avgPrice = 0 →
      (syntheticTrade wallet now pos).price = 0.5) := by
  refine ⟨rfl, rfl, ?_, ?_, ?_⟩
  · intro q hq hq0
    simp [syntheticTrade, jsOr, hq, hq0]
  · rintro (hc | hc) ha <;> simp [syntheticTrade, jsOr, qOr, hc, ha]
  · rintro (hc | hc) ha <;> simp [syntheticTrade, jsOr, qOr, hc, ha]

/-- Witness for C1 at a concrete position with no price signal. -/
theorem synthetic_exit_instruction_fields_witness :
    (syntheticTrade "w" 0 samplePosNoSignal).price = 0.5 :=
  (synthetic_exit_instruction_fields "w" 0 samplePosNoSignal).2.2.2.2 (Or.inr rfl) rfl

/-- Claim C10: the synthesized exit instruction's usdcSize equals size
times the current price falling back to the average entry price falling
back to 0 — so with no positive price signal the instruction has
price 0.5 but usdcSize 0, and usdcSize differs from size × price
whenever size is positive. -/
theorem synthetic_exit_usdcSize (wallet : String) (now : ℕ) (pos : Position) :
    (∀ q : ℚ, pos.curPrice = some q → q ≠ 0 →
      (syntheticTrade wallet now pos).usdcSize = pos.size * q) ∧
    ((pos.curPrice = none ∨ pos.curPrice = some 0) → pos.avgPrice ≠ 0 →
      (syntheticTrade wallet now pos).usdcSize = pos.size * pos.avgPrice) ∧
    ((pos.curPrice = none ∨ pos.curPrice = some 0) → pos.avgPrice = 0 →
      (syntheticTrade wallet now pos).usdcSize = 0 ∧
      (syntheticTrade wallet now pos).price = 0.5 ∧
      (0 < pos.size →
        (syntheticTrade wallet now pos).usdcSize
          ≠ pos.size * (syntheticTrade wallet now pos).price)) := by
  refine ⟨?_, ?_, ?_⟩
  · intro q hq hq0
    simp [syntheticTrade, jsOr, qOr_self_zero, hq, hq0]
  · rintro (hc | hc) ha <;> simp [syntheticTrade, jsOr, qOr, qOr_self_zero, hc, ha]
  · rintro hc ha
    have hu : (syntheticTrade wallet now pos).usdcSize = 0 := by
      rcases hc with hc | hc <;> simp [syntheticTrade, jsOr, qOr, qOr_self_zero, hc, ha]
    have hp : (syntheticTrade wallet now pos).price = 0.5 := by
      rcases hc with hc | hc <;> simp [syntheticTrade, jsOr, qOr, hc, ha]
    refine ⟨hu, hp, ?_⟩
    intro hs
    rw [hu, hp]
    have h2 : 0 < pos.size * (0.5 : ℚ) := by linarith
    exact ne_of_lt h2

/-- Witness for C10 at a concrete no-signal position of positive size. -/
theorem synthetic_exit_usdcSize_witness :
    (syntheticTrade "w" 0 samplePosNoSignal).usdcSize = 0 ∧
    (syntheticTrade "w" 0 samplePosNoSignal).price = 0.5 ∧
    (syntheticTrade "w" 0 samplePosNoSignal).usdcSize
      ≠ samplePosNoSignal.size * (syntheticTrade "w" 0 samplePosNoSignal).price := by
  obtain ⟨h1, h2, h3⟩ := (synthetic_exit_usdcSize "w" 0 samplePosNoSignal).2.2 (Or.inr rfl) rfl
  exact ⟨h1, h2, h3 (by norm_num [samplePosNoSignal])⟩

/-- Claim C3: when the computed stale bot-only set is empty, the
reconciliation run reports success with zero actions — no balance
lookup, no order submissions, no fatal error. -/
theorem reconcile_empty_noop (rs : List (List Position)) (bps : List Position)
    (oracle : Position → Except String Unit) (wallet : String) (now : ℕ)
    (h : botOnlyRec rs bps = []) :
    (reconcileRun rs bps oracle wallet now).events = [Event.logSuccessNoStale] ∧
    Event.fetchBalance ∉ (reconcileRun rs bps oracle wallet now).events ∧
    submittedPositions (reconcileRun rs bps oracle wallet now).events = [] ∧
    (reconcileRun rs bps oracle wallet now).fatal = none := by
  have hlen : (botOnlyRec rs bps).length = 0 := by rw [h]; rfl
  refine ⟨?_, ?_, ?_, reconcileRun_fatal rs bps oracle wallet now⟩
  all_goals simp [reconcileRun, hlen, submittedPositions]

/-- Witness for C3: the trader still holds the bot's only condition. -/
theorem reconcile_empty_noop_witness :
    (reconcileRun [[samplePosA]] [samplePosA] oracleOk "w" 0).events
      = [Event.logSuccessNoStale] :=
  (reconcile_empty_noop [[samplePosA]] [samplePosA] oracleOk "w" 0 (by
    norm_num [botOnlyRec, botOpenRec, openFilter, isOpenPos, jsNum,
      traderOpenConditions, samplePosA])).1

/-- Claim C2: per-position failures are caught and logged with the
position's identity and do not stop the loop — every stale position is
still attempted and the driver never ends with a fatal error because
some tasks failed. -/
theorem reconcile_failures_do_not_stop (rs : List (List Position)) (bps : List Position)
    (oracle : Position → Except String Unit) (wallet : String) (now : ℕ) :
    (reconcileRun rs bps oracle wallet now).fatal = none ∧
    submittedPositions (reconcileRun rs bps oracle wallet now).events = botOnlyRec rs bps ∧
    (∀ p ∈ botOnlyRec rs bps, ∀ e, oracle p = .error e →
      Event.logError p.conditionId e ∈ (reconcileRun rs bps oracle wallet now).events) := by
  refine ⟨reconcileRun_fatal rs bps oracle wallet now,
    submittedPositions_run rs bps oracle wallet now, ?_⟩
  intro p hp e he
  have hne : ¬(botOnlyRec rs bps).length = 0 := by
    intro h0
    rw [List.length_eq_zero.mp h0] at hp
    cases hp
  simp only [reconcileRun, if_neg hne]
  refine List.mem_cons_of_mem _ ?_
  refine List.mem_flatMap.mpr ⟨p, hp, ?_⟩
  simp [taskEvents, he]

/-- Witness for C2: the single failing task is logged with its label. -/
theorem reconcile_failures_do_not_stop_witness :
    Event.logError samplePosA.conditionId "boom"
      ∈ (reconcileRun [] [samplePosA] oracleBoom "w" 0).events :=
  (reconcile_failures_do_not_stop [] [samplePosA] oracleBoom "w" 0).2.2
    samplePosA (by
      norm_num [botOnlyRec, botOpenRec, openFilter, isOpenPos, jsNum,
        traderOpenConditions, samplePosA]) "boom" rfl

/-- Claim C9: within one pass a bot open position is exited precisely
when no tracked trader holds its conditionId open, and every submission
in the run is a sell of the synthesized exit instruction. -/
theorem stale_only_when_no_trader_holds (rs : List (List Position)) (bps : List Position)
    (oracle : Position → Except String Unit) (wallet : String) (now : ℕ) :
    (∀ p, p ∈ submittedPositions (reconcileRun rs bps oracle wallet now).events ↔
      (p ∈ bps ∧ isOpenPos p = true ∧
        ∀ r ∈ rs, ∀ q ∈ r, isOpenPos q = true → q.conditionId ≠ p.conditionId)) ∧
    (∀ s p tr, Event.submitOrder s p tr ∈ (reconcileRun rs bps oracle wallet now).events →
      s = "sell" ∧ tr = syntheticTrade wallet now p ∧ tr.side = "SELL") := by
  constructor
  · intro p
    rw [submittedPositions_run]
    exact mem_botOnlyRec rs bps p
  · intro s p tr hmem
    by_cases h : (botOnlyRec rs bps).length = 0
    · simp [reconcileRun, h] at hmem
    · simp only [reconcileRun, if_neg h] at hmem
      rcases List.mem_cons.mp hmem with hfb | hfm
      · cases hfb
      · obtain ⟨p2, hp2, hin⟩ := List.mem_flatMap.mp hfm
        cases ho : oracle p2 <;> simp [taskEvents, ho] at hin <;>
          obtain ⟨hs, hp, htr⟩ := hin <;> subst hs <;> subst hp <;> subst htr <;>
          exact ⟨rfl, rfl, rfl⟩

/-- Witness for C9: a bot-only condition absent from the trader side is
submitted for exit. -/
theorem stale_only_when_no_trader_holds_witness :
    samplePosA ∈ submittedPositions
      (reconcileRun [[samplePosB]] [samplePosA] oracleOk "w" 0).events :=
  ((stale_only_when_no_trader_holds [[samplePosB]] [samplePosA] oracleOk "w" 0).1
    samplePosA).mpr
    ⟨by simp, by norm_num [isOpenPos, jsNum, samplePosA], by
      norm_num [samplePosB, samplePosA, isOpenPos, jsNum]
      decide⟩

/-- Claim C5: with no shared marketKey among open positions the matcher
returns no matched pairs and the open-filtered inputs as traderOnly and
botOnly; in general traderOnly is exactly the trader open positions
whose key is absent from the bot mapping, botOnly is the symmetric
complement, and both are disjoint from the matched pairs. -/
theorem matcher_partition (tp bp : List Position) :
    ((∀ t ∈ openFilter tp, ∀ b ∈ openFilter bp, getKey t ≠ getKey b) →
      matchedPairs tp bp = [] ∧ traderOnlyF tp bp = openFilter tp ∧
        botOnlyF tp bp = openFilter bp) ∧
    (∀ p, p ∈ traderOnlyF tp bp ↔
      p ∈ openFilter tp ∧ lookupLast (openFilter bp) (getKey p) = none) ∧
    (∀ p, p ∈ botOnlyF tp bp ↔
      p ∈ openFilter bp ∧ lookupLast (openFilter tp) (getKey p) = none) ∧
    (∀ p ∈ traderOnlyF tp bp, ∀ pr ∈ matchedPairs tp bp, pr.1 ≠ p) ∧
    (∀ p ∈ botOnlyF tp bp, ∀ pr ∈ matchedPairs tp bp, pr.2 ≠ p) := by
  refine ⟨?_, ?_, ?_, ?_, ?_⟩
  · intro hdisj
    have hnone2 : ∀ p ∈ openFilter tp, lookupLast (openFilter bp) (getKey p) = none := by
      intro p hp
      cases hb : lookupLast (openFilter bp) (getKey p) with
      | none => rfl
      | some b =>
        obtain ⟨hbm, hbk⟩ := mem_of_lookupLast hb
        exact absurd hbk.symm (hdisj p hp b hbm)
    have hnone3 : ∀ p ∈ openFilter bp, lookupLast (openFilter tp) (getKey p) = none := by
      intro p hp
      cases ht : lookupLast (openFilter tp) (getKey p) with
      | none => rfl
      | some t =>
        obtain ⟨htm, htk⟩ := mem_of_lookupLast ht
        exact absurd htk (hdisj t htm p hp)
    refine ⟨?_, List.filter_eq_self.mpr ?_, List.filter_eq_self.mpr ?_⟩
    · simp only [matchedPairs]
      apply List.filterMap_eq_nil_iff.mpr
      intro k hk
      obtain ⟨t, ht, rfl⟩ := List.mem_map.mp (mem_of_mem_firstKeys _ k hk)
      rw [hnone2 t ht]
      cases lookupLast (openFilter tp) (getKey t) <;> rfl
    · intro p hp
      rw [hnone2 p hp]
      rfl
    · intro p hp
      rw [hnone3 p hp]
      rfl
  · intro p
    simp only [traderOnlyF, List.mem_filter, Option.isNone_iff_eq_none]
  · intro p
    simp only [botOnlyF, List.mem_filter, Option.isNone_iff_eq_none]
  · intro p hp pr hpr heq
    obtain ⟨k, h1, h2⟩ := mem_matchedPairs hpr
    have hk : getKey p = k := heq ▸ (mem_of_lookupLast h1).2
    have hpn := (List.mem_filter.mp hp).2
    rw [hk, h2] at hpn
    cases hpn
  · intro p hp pr hpr heq
    obtain ⟨k, h1, h2⟩ := mem_matchedPairs hpr
    have hk : getKey p = k := heq ▸ (mem_of_lookupLast h2).2
    have hpn := (List.mem_filter.mp hp).2
    rw [hk, h1] at hpn
    cases hpn

/-- Witness for C5 on two open positions with different keys. -/
theorem matcher_partition_witness :
    matchedPairs [sampleTrader40] [samplePosB] = [] ∧
    traderOnlyF [sampleTrader40] [samplePosB] = openFilter [sampleTrader40] ∧
    botOnlyF [sampleTrader40] [samplePosB] = openFilter [samplePosB] :=
  (matcher_partition [sampleTrader40] [samplePosB]).1 (by
    norm_num [openFilter, isOpenPos, jsNum, sampleTrader40, samplePosB, getKey]
    decide)

/-- Claim C6: a position whose currentValue is absent or at most 0.01
is classified closed and excluded from matching and reconciliation,
regardless of its size. -/
theorem closed_positions_excluded (p : Position) (h : jsNum p.currentValue ≤ 0.01) :
    isOpenPos p = false ∧
    (∀ l, p ∈ l → p ∈ closedFilter l) ∧
    (∀ l, p ∉ openFilter l) ∧
    (∀ tp bp, p ∉ traderOnlyF tp bp) ∧
    (∀ tp bp, p ∉ botOnlyF tp bp) ∧
    (∀ tp bp, ∀ pr ∈ matchedPairs tp bp, pr.1 ≠ p ∧ pr.2 ≠ p) ∧
    (∀ rs bps, p ∉ botOnlyRec rs bps) := by
  have hopen : isOpenPos p = false := by
    simp only [isOpenPos, decide_eq_false_iff_not]
    exact not_lt.mpr h
  have hnotopen : ∀ l, p ∉ openFilter l := by
    intro l hl
    have := (List.mem_filter.mp hl).2
    rw [hopen] at this
    cases this
  refine ⟨hopen, ?_, hnotopen, ?_, ?_, ?_, ?_⟩
  · intro l hl
    exact List.mem_filter.mpr ⟨hl, by rw [hopen]; rfl⟩
  · intro tp bp hmem
    exact hnotopen tp (List.mem_filter.mp hmem).1
  · intro tp bp hmem
    exact hnotopen bp (List.mem_filter.mp hmem).1
  · intro tp bp pr hpr
    obtain ⟨k, h1, h2⟩ := mem_matchedPairs hpr
    constructor
    · intro heq
      exact hnotopen tp (heq ▸ (mem_of_lookupLast h1).1)
    · intro heq
      exact hnotopen bp (heq ▸ (mem_of_lookupLast h2).1)
  · intro rs bps hmem
    exact hnotopen bps (List.mem_filter.mp hmem).1

/-- Witness for C6 at a closed position of size 100. -/
theorem closed_positions_excluded_witness :
    sampleClosed ∉ openFilter [sampleClosed] :=
  (closed_positions_excluded sampleClosed (by
    norm_num [jsNum, sampleClosed])).2.2.1 [sampleClosed]

theorem slippage_fold_fin :
    ∀ (pairs : List (Position × Position)), (∀ pr ∈ pairs, 0 < pr.1.avgPrice) →
    ∀ q : ℚ,
      pairs.foldl
        (fun (acc : JNum) pr =>
          acc.add ((jsDiv (pr.2.avgPrice - pr.1.avgPrice) pr.1.avgPrice).mulQ 100))
        (JNum.fin q)
      = JNum.fin (q + (pairs.map (fun pr => reportedPairSlippagePct pr.1 pr.2)).sum)
  | [], _, q => by simp
  | pr :: rest, hpos, q => by
    have hpr : 0 < pr.1.avgPrice := hpos pr (List.mem_cons_self _ _)
    have hne : pr.1.avgPrice ≠ 0 := ne_of_gt hpr
    rw [List.foldl_cons]
    have hstep :
        (JNum.fin q).add ((jsDiv (pr.2.avgPrice - pr.1.avgPrice) pr.1.avgPrice).mulQ 100)
          = JNum.fin (q + reportedPairSlippagePct pr.1 pr.2) := by
      simp [jsDiv, hne, JNum.mulQ, JNum.add, reportedPairSlippagePct, hpr]
    rw [hstep,
      slippage_fold_fin rest (fun x hx => hpos x (List.mem_cons_of_mem _ hx))
        (q + reportedPairSlippagePct pr.1 pr.2)]
    rw [List.map_cons, List.sum_cons]
    congr 1
    ring

/-- Claim C7 (amended): the displayed per-pair slippage percent equals
(bot entry − trader entry) / trader entry × 100 and is reported 0 when
the trader entry price is 0; and provided every matched pair's trader
entry price is positive, the reported average slippage equals the
unweighted arithmetic mean of these per-pair percentages. -/
theorem avg_slippage_unweighted_mean (tp bp : List Position)
    (hpos : ∀ pr ∈ matchedPairs tp bp, 0 < pr.1.avgPrice) :
    (∀ pr ∈ matchedPairs tp bp,
      reportedPairSlippagePct pr.1 pr.2
        = (pr.2.avgPrice - pr.1.avgPrice) / pr.1.avgPrice * 100) ∧
    (∀ t b : Position, t.avgPrice = 0 → reportedPairSlippagePct t b = 0) ∧
    (matchedPairs tp bp ≠ [] →
      avgSlippagePct (matchedPairs tp bp)
        = JNum.fin (((matchedPairs tp bp).map
            (fun pr => reportedPairSlippagePct pr.1 pr.2)).sum
            / ((matchedPairs tp bp).length : ℚ))) := by
  refine ⟨?_, ?_, ?_⟩
  · intro pr hpr
    simp [reportedPairSlippagePct, hpos pr hpr]
  · intro t b ht
    simp [reportedPairSlippagePct, ht]
  · intro hne
    have hlen : 0 < (matchedPairs tp bp).length := List.length_pos.mpr hne
    simp only [avgSlippagePct, if_pos hlen]
    rw [slippage_fold_fin (matchedPairs tp bp) hpos 0]
    simp [JNum.divNat, Nat.pos_iff_ne_zero.mp hlen]

/-- Witness for C7 (amended) on the spec's 0.40 / 0.42 scenario. -/
theorem avg_slippage_unweighted_mean_witness :
    avgSlippagePct (matchedPairs [sampleTrader40] [sampleBot42])
      = JNum.fin (((matchedPairs [sampleTrader40] [sampleBot42]).map
          (fun pr => reportedPairSlippagePct pr.1 pr.2)).sum
          / ((matchedPairs [sampleTrader40] [sampleBot42]).length : ℚ)) := by
  have ho1 : openFilter [sampleTrader40] = [sampleTrader40] := by
    norm_num [openFilter, isOpenPos, jsNum, sampleTrader40]
  have ho2 : openFilter [sampleBot42] = [sampleBot42] := by
    norm_num [openFilter, isOpenPos, jsNum, sampleBot42]
  have hm : matchedPairs [sampleTrader40] [sampleBot42] = [(sampleTrader40, sampleBot42)] := by
    simp only [matchedPairs, ho1, ho2]
    simp [firstKeys, lookupLast, getKey, sampleTrader40, sampleBot42]
  refine (avg_slippage_unweighted_mean [sampleTrader40] [sampleBot42] ?_).2.2 ?_
  · intro pr hpr
    rw [hm] at hpr
    rcases List.mem_singleton.mp hpr with rfl
    norm_num [sampleTrader40]
  · rw [hm]
    simp

/-- Counterexample for C7: with a single matched pair whose trader
entry price is 0, the displayed per-pair percentages are [0] — mean
0 — but the computed aggregate average is Infinity, so the reported
average is not the mean of the reported per-pair percentages. -/
theorem avg_slippage_cex :
    avgSlippagePct (matchedPairs [sampleTraderZeroEntry] [sampleBotHalfEntry]) = JNum.pinf ∧
    (matchedPairs [sampleTraderZeroEntry] [sampleBotHalfEntry]).map
      (fun pr => reportedPairSlippagePct pr.1 pr.2) = [0] ∧
    JNum.pinf ≠ JNum.fin 0 := by
  have ho1 : openFilter [sampleTraderZeroEntry] = [sampleTraderZeroEntry] := by
    norm_num [openFilter, isOpenPos, jsNum, sampleTraderZeroEntry]
  have ho2 : openFilter [sampleBotHalfEntry] = [sampleBotHalfEntry] := by
    norm_num [openFilter, isOpenPos, jsNum, sampleBotHalfEntry]
  have hm : matchedPairs [sampleTraderZeroEntry] [sampleBotHalfEntry]
      = [(sampleTraderZeroEntry, sampleBotHalfEntry)] := by
    simp only [matchedPairs, ho1, ho2]
    simp [firstKeys, lookupLast, getKey, sampleTraderZeroEntry, sampleBotHalfEntry]
  refine ⟨?_, ?_, by simp⟩
  · rw [hm]
    norm_num [avgSlippagePct, jsDiv, JNum.mulQ, JNum.add, JNum.divNat,
      sampleTraderZeroEntry, sampleBotHalfEntry]
  · rw [hm]
    norm_num [reportedPairSlippagePct, sampleTraderZeroEntry]

/-- Counterexample for C8: a run whose single task fails submission
processes that task but emits no pause at all, so the fixed pause does
not follow every processed task regardless of outcome. -/
theorem pause_not_after_failed_task :
    (submittedPositions (reconcileRun [] [samplePosA] oracleBoom "w" 0).events).length = 1 ∧
    ((reconcileRun [] [samplePosA] oracleBoom "w" 0).events.filter isSleepEvent).length = 0 := by
  have hb : botOnlyRec [] [samplePosA] = [samplePosA] := by
    norm_num [botOnlyRec, botOpenRec, openFilter, isOpenPos, jsNum,
      traderOpenConditions, samplePosA]
  constructor
  · rw [submittedPositions_run, hb]
    rfl
  · simp [reconcileRun, hb, taskEvents, oracleBoom, isSleepEvent]

/-- Claim C8 (amended): within one pass the ≈250ms pause follows
exactly the processed tasks whose order submission succeeded; a task
whose submission throws skips the pause, and the loop proceeds to the
next task. -/
theorem pause_follows_successful_tasks (rs : List (List Position)) (bps : List Position)
    (oracle : Position → Except String Unit) (wallet : String) (now : ℕ)
    (hne : botOnlyRec rs bps ≠ []) :
    (reconcileRun rs bps oracle wallet now).events
      = .fetchBalance :: (botOnlyRec rs bps).flatMap (taskEvents oracle wallet now) ∧
    ∀ p, (Event.sleepMs 250 ∈ taskEvents oracle wallet now p ↔ oracle p = .ok ()) := by
  constructor
  · have h : ¬(botOnlyRec rs bps).length = 0 := by
      simpa [List.length_eq_zero] using hne
    simp [reconcileRun, h]
  · intro p
    cases ho : oracle p <;> simp [taskEvents, ho]

/-- Witness for C8 (amended) at a run with one failing task. -/
theorem pause_follows_successful_tasks_witness :
    (reconcileRun [] [samplePosA] oracleBoom "w" 0).events
      = .fetchBalance :: (botOnlyRec [] [samplePosA]).flatMap (taskEvents oracleBoom "w" 0) :=
  (pause_follows_successful_tasks [] [samplePosA] oracleBoom "w" 0 (by
    norm_num [botOnlyRec, botOpenRec, openFilter, isOpenPos, jsNum,
      traderOpenConditions, samplePosA])).1

theorem slippageGuard_skip_abort (cfg : SlippageConfig) (s : Side) (ref : ℚ) (q : Quote)
    (attempt : ℕ) (hskip : cfg.action = .skip)
    (hviol : toleranceViolated cfg s ref q = true ∨ depthViolated cfg s q = true) :
    slippageGuard cfg s ref q attempt = .abort (violationReason cfg s ref q) := by
  have hor : (toleranceViolated cfg s ref q || depthViolated cfg s q) = true := by
    rcases hviol with h | h <;> simp [h]
  unfold slippageGuard
  simp [hor, hskip]

theorem execLoopFrom_abort (cfg : SlippageConfig) (s : Side) (ref : ℚ) (quotes : ℕ → Quote)
    (submit : Except String Unit) (attempt : ℕ) (r : String)
    (h : slippageGuard cfg s ref (quotes attempt) attempt = .abort r) :
    execLoopFrom cfg s ref quotes submit attempt = ⟨[.abort r], 0, false, .aborted r⟩ := by
  unfold execLoopFrom
  split
  · next h2 => rw [h2] at h; cases h
  · next r2 h2 =>
    rw [h2] at h
    injection h with hr
    rw [hr]
  · next h2 => rw [h2] at h; cases h

/-- Claim C4: when the slippage action is skip, a single tolerance or
depth violation on an order attempt yields exactly one Abort decision,
zero RetryAfterWait transitions, zero waits, and no order submission. -/
theorem skip_action_aborts_immediately (cfg : SlippageConfig) (s : Side) (ref : ℚ)
    (quotes : ℕ → Quote) (submit : Except String Unit)
    (hskip : cfg.action = .skip)
    (hviol : toleranceViolated cfg s ref (quotes 0) = true ∨
      depthViolated cfg s (quotes 0) = true) :
    (execLoop cfg s ref quotes submit).decisions
        = [.abort (violationReason cfg s ref (quotes 0))] ∧
    (execLoop cfg s ref quotes submit).waits = 0 ∧
    (execLoop cfg s ref quotes submit).submitted = false ∧
    (execLoop cfg s ref quotes submit).outcome
        = .aborted (violationReason cfg s ref (quotes 0)) := by
  have hg := slippageGuard_skip_abort cfg s ref (quotes 0) 0 hskip hviol
  have hrun := execLoopFrom_abort cfg s ref quotes submit 0 _ hg
  unfold execLoop
  rw [hrun]
  exact ⟨rfl, rfl, rfl, rfl⟩

/-- Witness for C4 with a 20% adverse drift against a 1% tolerance. -/
theorem skip_action_aborts_immediately_witness :
    (execLoop sampleCfgSkip .buy (1/2) quotesDrifted (.ok ())).decisions
      = [.abort (violationReason sampleCfgSkip .buy (1/2) (quotesDrifted 0))] :=
  (skip_action_aborts_immediately sampleCfgSkip .buy (1/2) quotesDrifted (.ok ()) rfl
    (Or.inl (by
      norm_num [toleranceViolated, adverseDrift, livePrice, quotesDrifted,
        sampleCfgSkip]))).1

end PolyBot
